import Mathlib

/-!
Verification of the `boolean_expression` library (src/boolean_expression.py).

The library builds boolean expression trees (leaf comparisons, raw
expressions, AND/OR/NOT compounds), flattens nested same-operator
compounds with identity-based cycle detection, and renders trees to
strings for several backends (generic, LDAP, Airtable).

Three faithful models of `Compound.flatten` are developed, each suited to a
different class of inputs of the Python function:

* a heap model (`flattenGraph`): nodes live in an association list keyed by
  Python object identity (`id()`), so arbitrary object graphs including
  cyclic ones are representable.  Recursion depth is tracked with fuel;
  a result of `OutOfFuel` at every fuel models unbounded recursion
  (Python's stack overflow / `RecursionError`).
* an object-tree model (`flattenObj`): acyclic object trees, each node
  annotated with its `id()`.  Sharing one object under several parents is
  modelled by repeating the same id (ids determine subtrees).  The
  mutable `memo` set of the source is threaded explicitly: the recursive
  same-operator call `item.flatten(memo=memo)` receives and returns the
  updated set, a different-operator child's `item.flatten()` starts from a
  fresh set whose updates are discarded, exactly as in the source.
* a value model (`flattenV`): the same recursion with the memo erased.
  Whenever the Python call succeeds the memo never fires (a hit raises),
  so on successful runs the value model computes the same result; it is
  also the exact model for flattening trees of freshly constructed
  `Compound` objects (fresh ids can never be in any memo), which is what
  the renderers and the second application in the idempotence claim do.

All recursive functions are fuel-indexed and structurally recursive on the
fuel, so concrete runs evaluate by `rfl`/`decide`.
-/

inductive CompoundOperator where
  | AND
  | OR
  | NOT
deriving DecidableEq

inductive ComparisonKind where
  | EQ
  | NE
  | GT
  | GTE
  | LT
  | LTE
deriving DecidableEq

/-- Model of the Python values that appear as the `value` of a `Comparison`.
`float` and `decimal` carry the string Python's `str()` returns for them;
`expression` is an `Expression` object used as a value (its `str()` is its
raw text); `list` models sequence values (rejected by the Airtable
renderer). -/
inductive Value where
  | none
  | bool (b : Bool)
  | int (n : Int)
  | float (s : String)
  | decimal (s : String)
  | str (s : String)
  | date (y m d : Nat)
  | datetime (y mo d h mi s : Nat)
  | expression (s : String)
  | list (vs : List Value)

/-- A condition tree by value: `Expression`, `Comparison` (tagged with one
of the six comparison classes), or `Compound`. -/
inductive Condition where
  | expression (value : String)
  | comparison (kind : ComparisonKind) (field : String) (value : Value)
  | compound (operator : CompoundOperator) (components : List Condition)

/-- A condition tree where every node carries its Python object identity
(`id()`).  Two occurrences of the same id stand for the same object, so a
shared (diamond) node is written by repeating its annotated subtree. -/
inductive ConditionObj where
  | expression (oid : Nat) (value : String)
  | comparison (oid : Nat) (kind : ComparisonKind) (field : String) (value : Value)
  | compound (oid : Nat) (operator : CompoundOperator) (components : List ConditionObj)

/-- The `id()` of a node. -/
def objId : ConditionObj → Nat
  | .expression i _ => i
  | .comparison i _ _ _ => i
  | .compound i _ _ => i

/-- A heap node: like `Condition` but a compound refers to its components
by object id, so cyclic object graphs are representable. -/
inductive Node where
  | expression (value : String)
  | comparison (kind : ComparisonKind) (field : String) (value : Value)
  | compound (operator : CompoundOperator) (components : List Nat)

/-- Look an object id up in a heap (an association list `id ↦ node`). -/
def lookupNode (g : List (Nat × Node)) (i : Nat) : Option Node :=
  match g.find? (fun p => p.1 == i) with
  | some p => some p.2
  | _ => Option.none

/-- The message of the `ValueError` raised by `Compound.__init__` when the
component list is empty. -/
def emptyCompoundMsg : String := "Compound() requires at least one condition"

/-- Python exceptions the modelled code can raise.  `CircularDependency`
carries the `id()` of the offending node (the source stores the node
itself; only its identity matters here).  `OutOfFuel` is the fuel model's
stand-in for a recursion that exceeds any given depth. -/
inductive PyError where
  | CircularDependency (node : Nat)
  | ValueError (msg : String)
  | TypeError (msg : String)
  | KeyError
  | OutOfFuel
deriving DecidableEq

/-- Value model of the loop body of `Compound.flatten` over a component
list (the memo erased; see the module comment).  For each item: a
same-operator compound is flattened and its components spliced in
(`flattened.extend(item.flatten(memo=memo).components)`), any other item is
flattened on its own and appended (`flattened.append(item.flatten())`,
which is the identity on leaves); the `Compound` constructor invoked by
each recursive `flatten` raises `ValueError` on an empty result. -/
def flattenLoopV : Nat → CompoundOperator → List Condition → Except PyError (List Condition)
  | 0, _, _ => .error .OutOfFuel
  | _ + 1, _, [] => .ok []
  | fuel + 1, op, item :: rest =>
    match item with
    | .compound op2 cs =>
      if op2 = op then
        match flattenLoopV fuel op cs with
        | .error e => .error e
        | .ok fs =>
          if fs.isEmpty then .error (.ValueError emptyCompoundMsg)
          else
            match flattenLoopV fuel op rest with
            | .error e => .error e
            | .ok fs2 => .ok (fs ++ fs2)
      else
        match flattenLoopV fuel op2 cs with
        | .error e => .error e
        | .ok fs =>
          if fs.isEmpty then .error (.ValueError emptyCompoundMsg)
          else
            match flattenLoopV fuel op rest with
            | .error e => .error e
            | .ok fs2 => .ok (.compound op2 fs :: fs2)
    | _ =>
      match flattenLoopV fuel op rest with
      | .error e => .error e
      | .ok fs2 => .ok (item :: fs2)

/-- Value model of `Condition.flatten` / `Compound.flatten`: a leaf returns
itself; a compound runs the loop and rebuilds `Compound(op, flattened)`
(raising `ValueError` if the flattened list is empty). -/
def flattenV (fuel : Nat) : Condition → Except PyError Condition
  | .compound op cs =>
    match flattenLoopV fuel op cs with
    | .error e => .error e
    | .ok fs => if fs.isEmpty then .error (.ValueError emptyCompoundMsg) else .ok (.compound op fs)
  | c => .ok c

/-- Object-tree model of the loop body of `Compound.flatten`, with the
mutable `memo` set threaded explicitly (as a list of ids; only membership
is ever used).  The loop first checks `id(item) in memo` and raises
`CircularDependency(item)` on a hit.  A same-operator compound child is
flattened with the *shared* memo — the child frame adds its own id
(`memo.add(id(self))`), and because the Python set is mutated in place the
ids it accumulated stay visible when the loop moves on to the next
sibling, which is why the updated set `m2` is passed along.  A
different-operator compound child is flattened via `item.flatten()`, i.e.
with a fresh set (`memo=None` → `set()` → add own id), and that set is
discarded afterwards. -/
def flattenLoopO : Nat → CompoundOperator → List ConditionObj → List Nat →
    Except PyError (List Condition × List Nat)
  | 0, _, _, _ => .error .OutOfFuel
  | _ + 1, _, [], memo => .ok ([], memo)
  | fuel + 1, op, item :: rest, memo =>
    if objId item ∈ memo then .error (.CircularDependency (objId item))
    else
      match item with
      | .compound i op2 cs =>
        if op2 = op then
          match flattenLoopO fuel op cs (i :: memo) with
          | .error e => .error e
          | .ok (fs, m2) =>
            if fs.isEmpty then .error (.ValueError emptyCompoundMsg)
            else
              match flattenLoopO fuel op rest m2 with
              | .error e => .error e
              | .ok (fs2, m3) => .ok (fs ++ fs2, m3)
        else
          match flattenLoopO fuel op2 cs [i] with
          | .error e => .error e
          | .ok (fs, _) =>
            if fs.isEmpty then .error (.ValueError emptyCompoundMsg)
            else
              match flattenLoopO fuel op rest memo with
              | .error e => .error e
              | .ok (fs2, m2) => .ok (.compound op2 fs :: fs2, m2)
      | .expression _ s =>
        match flattenLoopO fuel op rest memo with
        | .error e => .error e
        | .ok (fs2, m2) => .ok (.expression s :: fs2, m2)
      | .comparison _ k f v =>
        match flattenLoopO fuel op rest memo with
        | .error e => .error e
        | .ok (fs2, m2) => .ok (.comparison k f v :: fs2, m2)

/-- Object-tree model of calling `.flatten()` on a node: a leaf returns
itself; a compound seeds the memo with its own id, runs the loop over its
components and rebuilds `Compound(op, flattened)`. -/
def flattenObj (fuel : Nat) : ConditionObj → Except PyError Condition
  | .expression _ s => .ok (.expression s)
  | .comparison _ k f v => .ok (.comparison k f v)
  | .compound i op cs =>
    match flattenLoopO fuel op cs [i] with
    | .error e => .error e
    | .ok (fs, _) =>
      if fs.isEmpty then .error (.ValueError emptyCompoundMsg) else .ok (.compound op fs)

/-- Heap model of the loop body of `Compound.flatten`, identical to
`flattenLoopO` but following object ids through the heap, so cycles are
representable.  A missing id is a `KeyError` (cannot happen for the
well-formed heaps used below). -/
def flattenLoopG (g : List (Nat × Node)) :
    Nat → CompoundOperator → List Nat → List Nat →
    Except PyError (List Condition × List Nat)
  | 0, _, _, _ => .error .OutOfFuel
  | _ + 1, _, [], memo => .ok ([], memo)
  | fuel + 1, op, i :: rest, memo =>
    if i ∈ memo then .error (.CircularDependency i)
    else
      match lookupNode g i with
      | Option.none => .error .KeyError
      | some (.compound op2 cs) =>
        if op2 = op then
          match flattenLoopG g fuel op cs (i :: memo) with
          | .error e => .error e
          | .ok (fs, m2) =>
            if fs.isEmpty then .error (.ValueError emptyCompoundMsg)
            else
              match flattenLoopG g fuel op rest m2 with
              | .error e => .error e
              | .ok (fs2, m3) => .ok (fs ++ fs2, m3)
        else
          match flattenLoopG g fuel op2 cs [i] with
          | .error e => .error e
          | .ok (fs, _) =>
            if fs.isEmpty then .error (.ValueError emptyCompoundMsg)
            else
              match flattenLoopG g fuel op rest memo with
              | .error e => .error e
              | .ok (fs2, m2) => .ok (.compound op2 fs :: fs2, m2)
      | some (.expression s) =>
        match flattenLoopG g fuel op rest memo with
        | .error e => .error e
        | .ok (fs2, m2) => .ok (.expression s :: fs2, m2)
      | some (.comparison k f v) =>
        match flattenLoopG g fuel op rest memo with
        | .error e => .error e
        | .ok (fs2, m2) => .ok (.comparison k f v :: fs2, m2)

/-- Heap model of calling `.flatten()` on the object with id `i`. -/
def flattenGraph (g : List (Nat × Node)) (fuel : Nat) (i : Nat) : Except PyError Condition :=
  match lookupNode g i with
  | Option.none => .error .KeyError
  | some (.expression s) => .ok (.expression s)
  | some (.comparison k f v) => .ok (.comparison k f v)
  | some (.compound op cs) =>
    match flattenLoopG g fuel op cs [i] with
    | .error e => .error e
    | .ok (fs, _) =>
      if fs.isEmpty then .error (.ValueError emptyCompoundMsg) else .ok (.compound op fs)

/-- Model of the `Compound.__init__` constructor: rejects an empty
component list with `ValueError`, otherwise stores operator and
components. -/
def Compound_mk (operator : CompoundOperator) (components : List Condition) :
    Except PyError Condition :=
  if components.isEmpty then .error (.ValueError emptyCompoundMsg)
  else .ok (.compound operator components)

/-- The `field=value` keyword shorthand: each pair becomes `EQ(k, v)`, in
the order given. -/
def fieldsToEQ (fields : List (String × Value)) : List Condition :=
  fields.map (fun p => .comparison .EQ p.1 p.2)

/-- Model of the `AND(*components, **fields)` constructor: positional
conditions first, then the keyword pairs as EQ comparisons. -/
def AND (components : List Condition) (fields : List (String × Value)) :
    Except PyError Condition :=
  Compound_mk .AND (components ++ fieldsToEQ fields)

/-- Model of the `OR(*components, **fields)` constructor. -/
def OR (components : List Condition) (fields : List (String × Value)) :
    Except PyError Condition :=
  Compound_mk .OR (components ++ fieldsToEQ fields)

/-- Body of `NOT(component=None, /, **fields)` once the call shape has been
accepted: keyword pairs become EQ comparisons, the positional condition
(when present — every condition object is truthy) is appended, and a
resolved count other than 1 raises `ValueError` with the count in the
message. -/
def NOT_body (component : Option Condition) (fields : List (String × Value)) :
    Except PyError Condition :=
  let items := fieldsToEQ fields ++ (match component with | some c => [c] | Option.none => [])
  if items.length ≠ 1 then
    .error (.ValueError ("NOT() requires exactly one condition; got " ++ toString items.length))
  else Compound_mk .NOT items

/-- Model of calling `NOT` with a list of positional arguments: the
signature `NOT(component=None, /, **fields)` makes Python's call protocol
raise `TypeError` before the body runs when more than one positional
argument is supplied. -/
def NOT (positional : List Condition) (fields : List (String × Value)) :
    Except PyError Condition :=
  match positional with
  | [] => NOT_body Option.none fields
  | [c] => NOT_body (some c) fields
  | _ => .error (.TypeError
      ("NOT() takes from 0 to 1 positional arguments but "
        ++ toString positional.length ++ " were given"))

/-- Model of `Condition.__xor__`:
`OR(AND(self, NOT(other)), AND(other, NOT(self)))`. -/
def XOR (a b : Condition) : Except PyError Condition := do
  let nb ← NOT [b] []
  let lft ← AND [a, nb] []
  let na ← NOT [a] []
  let rgt ← AND [b, na] []
  OR [lft, rgt] []

/-- Zero-pad a number to two digits (as `strftime`/`isoformat` do). -/
def padTwo (n : Nat) : String := if n < 10 then "0" ++ toString n else toString n

/-- Zero-pad a year to four digits. -/
def padFour (n : Nat) : String :=
  if n < 10 then "000" ++ toString n
  else if n < 100 then "00" ++ toString n
  else if n < 1000 then "0" ++ toString n
  else toString n

/-- `date.isoformat()`: `YYYY-MM-DD`. -/
def isoDate (y m d : Nat) : String := padFour y ++ "-" ++ padTwo m ++ "-" ++ padTwo d

/-- `datetime.isoformat()` (no microseconds): `YYYY-MM-DDTHH:MM:SS`. -/
def isoDateTime (y mo d h mi s : Nat) : String :=
  isoDate y mo d ++ "T" ++ padTwo h ++ ":" ++ padTwo mi ++ ":" ++ padTwo s

/-- The single-quote character, written by code point to keep it out of
string literals. -/
def quoteChar : Char := Char.ofNat 39

/-- Python `repr()` of a plain string with no characters needing escapes
(the only shape the modelled code ever quotes): the string wrapped in
single quotes. -/
def pyReprStr (s : String) : String :=
  String.singleton quoteChar ++ s ++ String.singleton quoteChar

/-- Python `str()` of the modelled values.  `str()` of a sequence is kept
opaque: no claim inspects it (the only renderer that meets a sequence
rejects it before stringifying). -/
def pyStr : Value → String
  | .none => "None"
  | .bool true => "True"
  | .bool false => "False"
  | .int n => toString n
  | .float s => s
  | .decimal s => s
  | .str s => s
  | .date y m d => isoDate y m d
  | .datetime y mo d h mi s =>
    isoDate y mo d ++ " " ++ padTwo h ++ ":" ++ padTwo mi ++ ":" ++ padTwo s
  | .expression s => s
  | .list _ => "[...]"

/-- Python `type(...)` names used in `TypeError`s. -/
def pyTypeName : Value → String
  | .none => "NoneType"
  | .bool _ => "bool"
  | .int _ => "int"
  | .float _ => "float"
  | .decimal _ => "Decimal"
  | .str _ => "str"
  | .date _ _ _ => "datetime.date"
  | .datetime _ _ _ _ _ _ => "datetime.datetime"
  | .expression _ => "Expression"
  | .list _ => "list"

/-- The `value is None` test. -/
def isNoneValue : Value → Bool
  | .none => true
  | _ => false

/-- The base `Renderer.comparisons` table mapping comparison classes to
operator symbols (shared by the LDAP and Airtable renderers, which do not
override it). -/
def Renderer_comparisons : ComparisonKind → String
  | .EQ => "="
  | .NE => "!="
  | .GT => ">"
  | .GTE => ">="
  | .LT => "<"
  | .LTE => "<="

/-- The base `Renderer.compounds` table.  Every format string in the
source is of the shape `pre{items}post`, so it is modelled as
`(pre, joiner, post)`. -/
def Renderer_compounds : CompoundOperator → String × String × String
  | .AND => ("(", " and ", ")")
  | .OR => ("(", " or ", ")")
  | .NOT => ("not ", "", "")

/-- Model of the base `Renderer.to_str`: a `Comparison` goes straight to
`render_comparison` (default `format_field`/`format_value`, i.e. the field
verbatim and `str(value)`); anything else is flattened first and then
dispatched by variant — `render_expression` returns the raw text,
`render_compound` renders each child via `to_str` and joins them per the
`compounds` table.  A flattened node with no matching render method would
raise `TypeError` (unreachable for the three variants). -/
def Renderer_to_str : Nat → Condition → Except PyError String
  | 0, _ => .error .OutOfFuel
  | _ + 1, .comparison k f v => .ok (f ++ Renderer_comparisons k ++ pyStr v)
  | _ + 1, .expression s => .ok s
  | fuel + 1, .compound op cs =>
    match flattenV fuel (.compound op cs) with
    | .error e => .error e
    | .ok (.compound op2 fs) =>
      match fs.mapM (Renderer_to_str fuel) with
      | .error e => .error e
      | .ok items =>
        match Renderer_compounds op2 with
        | (pre, sep, post) => .ok (pre ++ String.intercalate sep items ++ post)
    | .ok _ => .error (.TypeError "no render method")

/-- The `LdapRenderer.compounds` table: `(&...)`, `(|...)`, `(!...)`, with
no delimiter between rendered children. -/
def LdapRenderer_compounds : CompoundOperator → String × String × String
  | .AND => ("(&", "", ")")
  | .OR => ("(|", "", ")")
  | .NOT => ("(!", "", ")")

/-- `LdapRenderer.format_field`: `memberOf` is rewritten to the
matching-rule OID form, all other fields pass through. -/
def LdapRenderer_format_field (field : String) : String :=
  if field = "memberOf" then "memberOf:1.2.840.113556.1.4.1941" else field

/-- `LdapRenderer.format_value`: date/datetime as LDAP generalized time
`YYYYMMDDHHMMSSZ` (a date's time components are zero), everything else via
`str(value)`. -/
def LdapRenderer_format_value : Value → String
  | .date y m d => padFour y ++ padTwo m ++ padTwo d ++ "000000Z"
  | .datetime y mo d h mi s =>
    padFour y ++ padTwo mo ++ padTwo d ++ padTwo h ++ padTwo mi ++ padTwo s ++ "Z"
  | v => pyStr v

/-- `LdapRenderer.render_comparison`: a `None` value renders as the
presence-negation `(!field=*)` with the *raw* field (neither the symbol
table nor `format_field` is consulted); otherwise the base
`render_comparison` output wrapped in parentheses. -/
def LdapRenderer_render_comparison (k : ComparisonKind) (field : String) (v : Value) : String :=
  if isNoneValue v then "(!" ++ field ++ "=*)"
  else "(" ++ LdapRenderer_format_field field ++ Renderer_comparisons k
    ++ LdapRenderer_format_value v ++ ")"

/-- Model of `LdapRenderer.to_str`: an `NE` comparison is first rewritten
to `NOT(EQ(field, value))` and re-dispatched (LDAP has no `!=`); the
freshly built compound then flows through the base dispatch, whose
recursive child calls re-enter this function (dynamic dispatch on
`self.to_str`). -/
def LdapRenderer_to_str : Nat → Condition → Except PyError String
  | 0, _ => .error .OutOfFuel
  | fuel + 1, .comparison .NE f v =>
    LdapRenderer_to_str fuel (.compound .NOT [.comparison .EQ f v])
  | _ + 1, .comparison k f v => .ok (LdapRenderer_render_comparison k f v)
  | _ + 1, .expression s => .ok s
  | fuel + 1, .compound op cs =>
    match flattenV fuel (.compound op cs) with
    | .error e => .error e
    | .ok (.compound op2 fs) =>
      match fs.mapM (LdapRenderer_to_str fuel) with
      | .error e => .error e
      | .ok items =>
        match LdapRenderer_compounds op2 with
        | (pre, sep, post) => .ok (pre ++ String.intercalate sep items ++ post)
    | .ok _ => .error (.TypeError "no render method")

/-- The `AirtableRenderer.compounds` table: `AND(...)`, `OR(...)`,
`NOT(...)` with `", "` between children. -/
def AirtableRenderer_compounds : CompoundOperator → String × String × String
  | .AND => ("AND(", ", ", ")")
  | .OR => ("OR(", ", ", ")")
  | .NOT => ("NOT(", ", ", ")")

/-- The opening curly brace character, by code point. -/
def braceOpen : Char := Char.ofNat 123

/-- The closing curly brace character, by code point. -/
def braceClose : Char := Char.ofNat 125

/-- `field.startswith("\x7b")`. -/
def startsWithBrace (s : String) : Bool :=
  match s.data with
  | [] => false
  | c :: _ => c = braceOpen

/-- `field.endswith("\x7d")`. -/
def endsWithBrace (s : String) : Bool :=
  match s.data.getLast? with
  | some c => c = braceClose
  | _ => false

/-- `AirtableRenderer.format_field`: wrap the field in curly braces unless
it is already wrapped. -/
def AirtableRenderer_format_field (field : String) : String :=
  if startsWithBrace field && endsWithBrace field then field
  else "\x7b" ++ field ++ "\x7d"

/-- `AirtableRenderer.format_value`: `None` → `EMPTY()`, booleans →
`str(int(value))`, date/datetime → `repr(value.isoformat())`,
int/float/Decimal/Expression → `str(value)`, anything else raises
`TypeError(type(value))`. -/
def AirtableRenderer_format_value : Value → Except PyError String
  | .none => .ok "EMPTY()"
  | .bool b => .ok (if b then "1" else "0")
  | .date y m d => .ok (pyReprStr (isoDate y m d))
  | .datetime y mo d h mi s => .ok (pyReprStr (isoDateTime y mo d h mi s))
  | .int n => .ok (toString n)
  | .float s => .ok s
  | .decimal s => .ok s
  | .expression s => .ok s
  | v => .error (.TypeError (pyTypeName v))

/-- Model of `AirtableRenderer`'s `to_str` (the base dispatch with the
Airtable tables and hooks; `render_comparison` computes the formatted
field first and then the formatted value, whose `TypeError` propagates). -/
def AirtableRenderer_to_str : Nat → Condition → Except PyError String
  | 0, _ => .error .OutOfFuel
  | _ + 1, .comparison k f v =>
    match AirtableRenderer_format_value v with
    | .error e => .error e
    | .ok val => .ok (AirtableRenderer_format_field f ++ Renderer_comparisons k ++ val)
  | _ + 1, .expression s => .ok s
  | fuel + 1, .compound op cs =>
    match flattenV fuel (.compound op cs) with
    | .error e => .error e
    | .ok (.compound op2 fs) =>
      match fs.mapM (AirtableRenderer_to_str fuel) with
      | .error e => .error e
      | .ok items =>
        match AirtableRenderer_compounds op2 with
        | (pre, sep, post) => .ok (pre ++ String.intercalate sep items ++ post)
    | .ok _ => .error (.TypeError "no render method")

/-- The ids of all compound nodes in a list of object trees (with
multiplicity, in preorder). -/
def compoundIds : List ConditionObj → List Nat
  | [] => []
  | .compound i _ cs :: rest => i :: (compoundIds cs ++ compoundIds rest)
  | .expression _ _ :: rest => compoundIds rest
  | .comparison _ _ _ _ :: rest => compoundIds rest

/-- The ids of all leaf nodes in a list of object trees (with
multiplicity). -/
def leafIds : List ConditionObj → List Nat
  | [] => []
  | .compound _ _ cs :: rest => leafIds cs ++ leafIds rest
  | .expression i _ :: rest => i :: leafIds rest
  | .comparison i _ _ _ :: rest => i :: leafIds rest

/-- Every compound node in the list has a nonempty component list (true of
every tree built through the `Compound` constructor, which rejects empty
component lists). -/
def wfComponents : List ConditionObj → Bool
  | [] => true
  | .compound _ _ cs :: rest => !cs.isEmpty && (wfComponents cs && wfComponents rest)
  | _ :: rest => wfComponents rest

/-- The top operator of a value tree differs from `op` (leaves trivially
qualify).  Children of a flattened compound satisfy this for the parent's
operator: that is exactly what the same-operator merging achieves. -/
def topOpNe (op : CompoundOperator) : Condition → Prop
  | .compound op2 _ => ¬ op2 = op
  | _ => True

/-- A value tree with no same-operator nesting and no empty compound: the
shape invariant of `flatten`'s output. -/
inductive NoNest : Condition → Prop
  | expression (s : String) : NoNest (.expression s)
  | comparison (k : ComparisonKind) (f : String) (v : Value) : NoNest (.comparison k f v)
  | compound (op : CompoundOperator) (cs : List Condition) :
      cs ≠ [] → (∀ c ∈ cs, NoNest c) → (∀ c ∈ cs, topOpNe op c) →
      NoNest (.compound op cs)

/-- A cyclic object graph whose cycle alternates operators: an AND node
whose only child is an OR node whose only child is the AND node again. -/
def gMixed : List (Nat × Node) := [(0, .compound .AND [1]), (1, .compound .OR [0])]

/-- A cyclic object graph whose cycle stays within one operator: two AND
nodes containing each other. -/
def gSameOp : List (Nat × Node) := [(0, .compound .AND [1]), (1, .compound .AND [0])]

/-- A compound whose component list contains the compound itself (the
doctest's `circular.components = [circular]` setup, with AND). -/
def gSelf : List (Nat × Node) := [(0, .compound .AND [0])]

/-- One AND compound object (id 3) holding one comparison leaf. -/
def sharedAnd : ConditionObj := .compound 3 .AND [.comparison 4 .EQ "x" (.int 1)]

/-- An acyclic diamond: the AND compound `sharedAnd` is the same object
under both children of the root AND.  No node is its own ancestor. -/
def tDiamond : ConditionObj :=
  .compound 0 .AND [.compound 1 .AND [sharedAnd], .compound 2 .AND [sharedAnd]]

/-- One comparison leaf object (id 7). -/
def sharedLeaf : ConditionObj := .comparison 7 .EQ "x" (.int 1)

/-- An acyclic tree in which the leaf object `sharedLeaf` is reused under
two different OR parents (legitimate diamond-shared leaf). -/
def tShared : ConditionObj :=
  .compound 0 .AND [.compound 1 .OR [sharedLeaf], .compound 2 .OR [sharedLeaf]]

/-- The flatten-merging example of the spec:
`AND(AND(EQ("a","a"), EQ("b","b")), AND(EQ("c","c"), OR(EQ("d","d"), EQ("e","e"))))`,
with distinct object ids. -/
def tC3 : ConditionObj :=
  .compound 1 .AND
    [.compound 2 .AND [.comparison 10 .EQ "a" (.str "a"), .comparison 11 .EQ "b" (.str "b")],
     .compound 3 .AND [.comparison 12 .EQ "c" (.str "c"),
        .compound 4 .OR [.comparison 13 .EQ "d" (.str "d"), .comparison 14 .EQ "e" (.str "e")]]]

/-- The expected flattening of `tC3`: a single AND whose components are
the three EQ leaves followed by the untouched OR subtree. -/
def cC3 : Condition :=
  .compound .AND
    [.comparison .EQ "a" (.str "a"), .comparison .EQ "b" (.str "b"),
     .comparison .EQ "c" (.str "c"),
     .compound .OR [.comparison .EQ "d" (.str "d"), .comparison .EQ "e" (.str "e")]]

/-- A concrete comparison leaf used to instantiate hypotheses in witness
theorems. -/
def xleaf : Condition := .comparison .EQ "p" (.int 1)

/-- Strip the object identities from a list of object trees. -/
def eraseIdsL : List ConditionObj → List Condition
  | [] => []
  | .expression _ s :: rest => .expression s :: eraseIdsL rest
  | .comparison _ k f v :: rest => .comparison k f v :: eraseIdsL rest
  | .compound _ op cs :: rest => .compound op (eraseIdsL cs) :: eraseIdsL rest

/-- Strip the object identities from one object tree. -/
def eraseIds : ConditionObj → Condition
  | .expression _ s => .expression s
  | .comparison _ k f v => .comparison k f v
  | .compound _ op cs => .compound op (eraseIdsL cs)

/-- Soundness of the memo for acyclic trees whose compound objects are not
shared: the loop of `Compound.flatten` succeeds on any component list whose
compound ids are pairwise distinct and distinct from every leaf id, as
long as the incoming memo mentions none of the list's ids.  Each item
contributes at least one flattened component, and the returned memo only
grows by compound ids of the list. -/
theorem flattenLoopO_acyclic :
    ∀ (fuel : Nat) (cs : List ConditionObj) (op : CompoundOperator) (memo : List Nat),
      sizeOf cs < fuel →
      (compoundIds cs).Nodup →
      (∀ l ∈ leafIds cs, l ∉ compoundIds cs) →
      wfComponents cs = true →
      (∀ x ∈ memo, x ∉ compoundIds cs ∧ x ∉ leafIds cs) →
      ∃ fs m2, flattenLoopO fuel op cs memo = .ok (fs, m2) ∧
        cs.length ≤ fs.length ∧
        (∀ x ∈ m2, x ∈ memo ∨ x ∈ compoundIds cs) := by
  intro fuel
  induction fuel with
  | zero => intro cs op memo hsz; omega
  | succ n ih =>
    intro cs op memo hsz hnd hlc hwf hm
    match cs with
    | [] => exact ⟨[], memo, rfl, by simp, fun x hx => Or.inl hx⟩
    | item :: rest =>
      have hnotmem : objId item ∉ memo := by
        intro hmem
        rcases hm _ hmem with ⟨hc, hl⟩
        cases item with
        | expression i s => exact hl (by simp [leafIds, objId])
        | comparison i k f v => exact hl (by simp [leafIds, objId])
        | compound i op2 cs2 => exact hc (by simp [compoundIds, objId])
      cases item with
      | expression i s =>
        simp only [objId] at hnotmem
        obtain ⟨fs2, m2, heq, hlen, hmem2⟩ := ih rest op memo
          (by simp at hsz; omega)
          (by simpa [compoundIds] using hnd)
          (by
            intro l hl2
            have := hlc l (by simp [leafIds, hl2])
            simpa [compoundIds] using this)
          (by simpa [wfComponents] using hwf)
          (by
            intro x hx
            rcases hm x hx with ⟨hc, hl⟩
            simp [leafIds] at hl
            exact ⟨by simpa [compoundIds] using hc, hl.2⟩)
        refine ⟨.expression s :: fs2, m2, ?_, by simp; omega, ?_⟩
        · simp only [flattenLoopO, objId]
          rw [if_neg hnotmem, heq]
        · intro x hx
          rcases hmem2 x hx with h | h
          · exact Or.inl h
          · exact Or.inr (by simpa [compoundIds] using h)
      | comparison i k f v =>
        simp only [objId] at hnotmem
        obtain ⟨fs2, m2, heq, hlen, hmem2⟩ := ih rest op memo
          (by simp at hsz; omega)
          (by simpa [compoundIds] using hnd)
          (by
            intro l hl2
            have := hlc l (by simp [leafIds, hl2])
            simpa [compoundIds] using this)
          (by simpa [wfComponents] using hwf)
          (by
            intro x hx
            rcases hm x hx with ⟨hc, hl⟩
            simp [leafIds] at hl
            exact ⟨by simpa [compoundIds] using hc, hl.2⟩)
        refine ⟨.comparison k f v :: fs2, m2, ?_, by simp; omega, ?_⟩
        · simp only [flattenLoopO, objId]
          rw [if_neg hnotmem, heq]
        · intro x hx
          rcases hmem2 x hx with h | h
          · exact Or.inl h
          · exact Or.inr (by simpa [compoundIds] using h)
      | compound i op2 cs2 =>
        simp only [objId] at hnotmem
        have hnd' : i ∉ compoundIds cs2 ++ compoundIds rest ∧
            (compoundIds cs2 ++ compoundIds rest).Nodup := by
          simpa [compoundIds, List.nodup_cons] using hnd
        have hi_cs2 : i ∉ compoundIds cs2 := fun h => hnd'.1 (by simp [h])
        have hi_rest : i ∉ compoundIds rest := fun h => hnd'.1 (by simp [h])
        have hnd_cs2 : (compoundIds cs2).Nodup := ((List.nodup_append).mp hnd'.2).1
        have hnd_rest : (compoundIds rest).Nodup := ((List.nodup_append).mp hnd'.2).2.1
        have hdisj : (compoundIds cs2).Disjoint (compoundIds rest) :=
          ((List.nodup_append).mp hnd'.2).2.2
        have hwf' : cs2.isEmpty = false ∧ wfComponents cs2 = true ∧ wfComponents rest = true := by
          simp [wfComponents] at hwf
          exact ⟨by simpa using hwf.1, hwf.2.1, hwf.2.2⟩
        have hcs2ne : cs2 ≠ [] := by
          intro h
          rw [h] at hwf'
          simp at hwf'
        have hsz1 : sizeOf cs2 < n := by simp at hsz; omega
        have hsz2 : sizeOf rest < n := by simp at hsz; omega
        have hlc_cs2 : ∀ l ∈ leafIds cs2, l ∉ compoundIds cs2 := by
          intro l hl2
          have := hlc l (by simp [leafIds, hl2])
          intro h
          exact this (by simp [compoundIds, h])
        have hlc_rest : ∀ l ∈ leafIds rest, l ∉ compoundIds rest := by
          intro l hl2
          have := hlc l (by simp [leafIds, hl2])
          intro h
          exact this (by simp [compoundIds, h])
        have hcall1pre : ∀ x, x = i ∨ x ∈ memo → x ∉ compoundIds cs2 ∧ x ∉ leafIds cs2 := by
          intro x hx
          rcases hx with rfl | hx
          · refine ⟨hi_cs2, fun h => ?_⟩
            have := hlc x (by simp [leafIds, h])
            exact this (by simp [compoundIds])
          · rcases hm x hx with ⟨hc, hl⟩
            exact ⟨fun h => hc (by simp [compoundIds, h]), fun h => hl (by simp [leafIds, h])⟩
        have hcomp_notleaf_rest : ∀ x, x ∈ compoundIds cs2 ∨ x = i → x ∉ leafIds rest := by
          intro x hx hmeml
          have := hlc x (by simp [leafIds, hmeml])
          rcases hx with h | rfl
          · exact this (by simp [compoundIds, h])
          · exact this (by simp [compoundIds])
        by_cases hop : op2 = op
        · obtain ⟨fs1, m2, heq1, hlen1, hmem1⟩ := ih cs2 op (i :: memo)
            hsz1 hnd_cs2 hlc_cs2 hwf'.2.1
            (by
              intro x hx
              simp only [List.mem_cons] at hx
              exact hcall1pre x hx)
          have hfs1pos : 0 < fs1.length :=
            lt_of_lt_of_le (List.length_pos.mpr hcs2ne) hlen1
          have hfs1ne : fs1.isEmpty = false := by
            cases fs1 with
            | nil => simp at hfs1pos
            | cons a l => rfl
          obtain ⟨fs2, m3, heq2, hlen2, hmem2⟩ := ih rest op m2
            hsz2 hnd_rest hlc_rest hwf'.2.2
            (by
              intro x hx
              rcases hmem1 x hx with hx2 | hx2
              · rcases List.mem_cons.mp hx2 with rfl | hx3
                · exact ⟨hi_rest, hcomp_notleaf_rest x (Or.inr rfl)⟩
                · rcases hm x hx3 with ⟨hc, hl⟩
                  refine ⟨fun h => hc (by simp [compoundIds, h]), fun h => hl (by simp [leafIds, h])⟩
              · exact ⟨fun h => hdisj hx2 h, hcomp_notleaf_rest x (Or.inl hx2)⟩)
          refine ⟨fs1 ++ fs2, m3, ?_, ?_, ?_⟩
          · simp only [flattenLoopO, objId]
            rw [if_neg hnotmem, if_pos hop, heq1]
            simp [hfs1ne, heq2]
          · simp [List.length_append]
            omega
          · intro x hx
            rcases hmem2 x hx with hx2 | hx2
            · rcases hmem1 x hx2 with hx3 | hx3
              · rcases List.mem_cons.mp hx3 with rfl | hx4
                · exact Or.inr (by simp [compoundIds])
                · exact Or.inl hx4
              · exact Or.inr (by simp [compoundIds, hx3])
            · exact Or.inr (by simp [compoundIds, hx2])
        · obtain ⟨fs1, m2, heq1, hlen1, hmem1⟩ := ih cs2 op2 [i]
            hsz1 hnd_cs2 hlc_cs2 hwf'.2.1
            (by
              intro x hx
              simp only [List.mem_singleton] at hx
              exact hcall1pre x (Or.inl hx))
          have hfs1pos : 0 < fs1.length :=
            lt_of_lt_of_le (List.length_pos.mpr hcs2ne) hlen1
          have hfs1ne : fs1.isEmpty = false := by
            cases fs1 with
            | nil => simp at hfs1pos
            | cons a l => rfl
          obtain ⟨fs2, m3, heq2, hlen2, hmem2⟩ := ih rest op memo
            hsz2 hnd_rest hlc_rest hwf'.2.2
            (by
              intro x hx
              rcases hm x hx with ⟨hc, hl⟩
              simp [leafIds] at hl
              refine ⟨fun h => hc (by simp [compoundIds, h]), fun h => hl.2 h⟩)
          refine ⟨.compound op2 fs1 :: fs2, m3, ?_, ?_, ?_⟩
          · simp only [flattenLoopO, objId]
            rw [if_neg hnotmem, if_neg hop, heq1]
            simp [hfs1ne, heq2]
          · simp
            omega
          · intro x hx
            rcases hmem2 x hx with hx2 | hx2
            · exact Or.inl hx2
            · exact Or.inr (by simp [compoundIds, hx2])

/-- Every component of a successfully flattened list is itself fully
flattened: no empty compound, no same-operator nesting anywhere, and in
particular no component carries the operator of the compound being
flattened. -/
theorem flattenLoopO_noNest :
    ∀ (fuel : Nat) (cs : List ConditionObj) (op : CompoundOperator) (memo : List Nat)
      (fs : List Condition) (m2 : List Nat),
      flattenLoopO fuel op cs memo = .ok (fs, m2) →
      ∀ f ∈ fs, NoNest f ∧ topOpNe op f := by
  intro fuel
  induction fuel with
  | zero =>
    intro cs op memo fs m2 h
    exact absurd h (by simp [flattenLoopO])
  | succ n ih =>
    intro cs op memo fs m2 h
    match cs with
    | [] =>
      simp [flattenLoopO] at h
      obtain ⟨h1, h2⟩ := h
      subst h1
      intro f hf
      simp at hf
    | item :: rest =>
      cases item with
      | expression i s =>
        simp only [flattenLoopO] at h
        split at h
        · exact absurd h (by simp)
        · cases heq : flattenLoopO n op rest memo with
          | error e => rw [heq] at h; exact absurd h (by simp)
          | ok p =>
            obtain ⟨fs2, mm⟩ := p
            rw [heq] at h
            simp at h
            obtain ⟨h1, h2⟩ := h
            subst h1
            intro f hf
            rcases List.mem_cons.mp hf with rfl | hf2
            · exact ⟨NoNest.expression s, trivial⟩
            · exact ih rest op memo fs2 mm heq f hf2
      | comparison i k fl v =>
        simp only [flattenLoopO] at h
        split at h
        · exact absurd h (by simp)
        · cases heq : flattenLoopO n op rest memo with
          | error e => rw [heq] at h; exact absurd h (by simp)
          | ok p =>
            obtain ⟨fs2, mm⟩ := p
            rw [heq] at h
            simp at h
            obtain ⟨h1, h2⟩ := h
            subst h1
            intro f hf
            rcases List.mem_cons.mp hf with rfl | hf2
            · exact ⟨NoNest.comparison k fl v, trivial⟩
            · exact ih rest op memo fs2 mm heq f hf2
      | compound i op2 cs2 =>
        simp only [flattenLoopO] at h
        split at h
        · exact absurd h (by simp)
        · split at h
          · rename_i hop
            cases heq1 : flattenLoopO n op cs2 (i :: memo) with
            | error e => rw [heq1] at h; exact absurd h (by simp)
            | ok p1 =>
              obtain ⟨fs1, mm⟩ := p1
              rw [heq1] at h
              simp only [] at h
              split at h
              · exact absurd h (by simp)
              · cases heq2 : flattenLoopO n op rest mm with
                | error e => rw [heq2] at h; exact absurd h (by simp)
                | ok p2 =>
                  obtain ⟨fs2, mm2⟩ := p2
                  rw [heq2] at h
                  simp at h
                  obtain ⟨h1, h2⟩ := h
                  subst h1
                  intro f hf
                  rcases List.mem_append.mp hf with hf1 | hf2
                  · exact ih cs2 op (i :: memo) fs1 mm heq1 f hf1
                  · exact ih rest op mm fs2 mm2 heq2 f hf2
          · rename_i hop
            cases heq1 : flattenLoopO n op2 cs2 [i] with
            | error e => rw [heq1] at h; exact absurd h (by simp)
            | ok p1 =>
              obtain ⟨fs1, mm⟩ := p1
              rw [heq1] at h
              simp only [] at h
              split at h
              · exact absurd h (by simp)
              · rename_i hne
                cases heq2 : flattenLoopO n op rest memo with
                | error e => rw [heq2] at h; exact absurd h (by simp)
                | ok p2 =>
                  obtain ⟨fs2, mm2⟩ := p2
                  rw [heq2] at h
                  simp at h
                  obtain ⟨h1, h2⟩ := h
                  subst h1
                  intro f hf
                  rcases List.mem_cons.mp hf with rfl | hf2
                  · refine ⟨NoNest.compound op2 fs1 ?_ ?_ ?_, ?_⟩
                    · intro hnil
                      rw [hnil] at hne
                      simp at hne
                    · exact fun c hc => (ih cs2 op2 [i] fs1 mm heq1 c hc).1
                    · exact fun c hc => (ih cs2 op2 [i] fs1 mm heq1 c hc).2
                    · simpa [topOpNe] using hop
                  · exact ih rest op memo fs2 mm2 heq2 f hf2

/-- A successful `flatten` of an object tree produces a `NoNest` value:
nonempty compounds with no same-operator nesting. -/
theorem flattenObj_noNest :
    ∀ (fuel : Nat) (t : ConditionObj) (c : Condition),
      flattenObj fuel t = .ok c → NoNest c := by
  intro fuel t c h
  cases t with
  | expression i s =>
    simp [flattenObj] at h
    rw [← h]
    exact NoNest.expression s
  | comparison i k f v =>
    simp [flattenObj] at h
    rw [← h]
    exact NoNest.comparison k f v
  | compound i op cs =>
    simp only [flattenObj] at h
    cases heq : flattenLoopO fuel op cs [i] with
    | error e => rw [heq] at h; exact absurd h (by simp)
    | ok p =>
      obtain ⟨fs, m2⟩ := p
      rw [heq] at h
      simp only [] at h
      split at h
      · exact absurd h (by simp)
      · rename_i hne
        simp at h
        rw [← h]
        refine NoNest.compound op fs ?_ ?_ ?_
        · intro hnil
          rw [hnil] at hne
          simp at hne
        · exact fun f hf => (flattenLoopO_noNest fuel cs op [i] fs m2 heq f hf).1
        · exact fun f hf => (flattenLoopO_noNest fuel cs op [i] fs m2 heq f hf).2

/-- On an already fully flattened component list (every item `NoNest` with
a different top operator), the loop of `flatten` reproduces the list
unchanged. -/
theorem flattenLoopV_fix :
    ∀ (fuel : Nat) (cs : List Condition) (op : CompoundOperator),
      (∀ c ∈ cs, NoNest c) →
      (∀ c ∈ cs, topOpNe op c) →
      sizeOf cs < fuel →
      flattenLoopV fuel op cs = .ok cs := by
  intro fuel
  induction fuel with
  | zero => intro cs op h1 h2 hsz; omega
  | succ n ih =>
    intro cs op h1 h2 hsz
    match cs with
    | [] => rfl
    | item :: rest =>
      have hrest1 : ∀ c ∈ rest, NoNest c := fun c hc => h1 c (by simp [hc])
      have hrest2 : ∀ c ∈ rest, topOpNe op c := fun c hc => h2 c (by simp [hc])
      have hszr : sizeOf rest < n := by simp at hsz; omega
      cases item with
      | expression s =>
        simp only [flattenLoopV]
        rw [ih rest op hrest1 hrest2 hszr]
      | comparison k f v =>
        simp only [flattenLoopV]
        rw [ih rest op hrest1 hrest2 hszr]
      | compound op2 cs2 =>
        have hop : ¬ op2 = op := by
          have := h2 (.compound op2 cs2) (by simp)
          simpa [topOpNe] using this
        have hinv : cs2 ≠ [] ∧ (∀ c ∈ cs2, NoNest c) ∧ ∀ c ∈ cs2, topOpNe op2 c := by
          have := h1 (.compound op2 cs2) (by simp)
          cases this with
          | compound _ _ hne ha hb => exact ⟨hne, ha, hb⟩
        have hsz2 : sizeOf cs2 < n := by simp at hsz; omega
        have hemp : cs2.isEmpty = false := by
          cases cs2 with
          | nil => exact absurd rfl hinv.1
          | cons a l => rfl
        simp only [flattenLoopV]
        rw [if_neg hop, ih cs2 op2 hinv.2.1 hinv.2.2 hsz2]
        simp [hemp, ih rest op hrest1 hrest2 hszr]

/-- A `NoNest` value is a fixed point of `flatten` (value model): this is
what makes flattening idempotent. -/
theorem flattenV_fix :
    ∀ (c : Condition) (fuel : Nat), NoNest c → sizeOf c ≤ fuel →
      flattenV fuel c = .ok c := by
  intro c fuel hnn hsz
  cases c with
  | expression s => rfl
  | comparison k f v => rfl
  | compound op cs =>
    have hinv : cs ≠ [] ∧ (∀ x ∈ cs, NoNest x) ∧ ∀ x ∈ cs, topOpNe op x := by
      cases hnn with
      | compound _ _ hne ha hb => exact ⟨hne, ha, hb⟩
    have hemp : cs.isEmpty = false := by
      cases cs with
      | nil => exact absurd rfl hinv.1
      | cons a l => rfl
    have hsz2 : sizeOf cs < fuel := by simp at hsz; omega
    simp only [flattenV]
    rw [flattenLoopV_fix fuel cs op hinv.2.1 hinv.2.2 hsz2]
    simp [hemp]

/-- A compound whose only child is a same-operator compound flattens to
exactly what the child flattens to (one fuel step apart): the wrapper
level disappears. -/
theorem flattenV_singleton :
    ∀ (fuel : Nat) (op : CompoundOperator) (cs : List Condition),
      flattenV (fuel + 1) (.compound op [.compound op cs]) = flattenV fuel (.compound op cs) := by
  intro fuel op cs
  cases fuel with
  | zero => simp [flattenV, flattenLoopV]
  | succ m =>
    simp only [flattenV, flattenLoopV, if_pos]
    cases heq : flattenLoopV (m + 1) op cs with
    | error e => simp [heq]
    | ok fs =>
      simp only [heq]
      by_cases hemp : fs.isEmpty
      · simp [hemp]
      · simp only [Bool.not_eq_true] at hemp
        simp [hemp, flattenLoopV]

/-- The mixed-operator cycle diverges: at every recursion depth the run of
`flatten` on either node of `gMixed` just runs out of fuel — the memo is
reset at each operator alternation, so the cycle is never detected. -/
theorem gMixed_loops :
    ∀ fuel,
      flattenLoopG gMixed fuel .AND [1] [0] = .error .OutOfFuel ∧
      flattenLoopG gMixed fuel .OR [0] [1] = .error .OutOfFuel := by
  intro fuel
  induction fuel with
  | zero => exact ⟨rfl, rfl⟩
  | succ n ih =>
    have l0 : lookupNode gMixed 0 = some (Node.compound .AND [1]) := rfl
    have l1 : lookupNode gMixed 1 = some (Node.compound .OR [0]) := rfl
    constructor
    · simp [flattenLoopG, l1, ih.2]
    · simp [flattenLoopG, l0, ih.1]

/-- Calling `flatten` on the AND node of the mixed-operator cycle never
terminates (models Python's unbounded recursion ending in a stack
overflow), and in particular never raises `CircularDependency`. -/
theorem flattenGraph_gMixed :
    ∀ fuel, flattenGraph gMixed fuel 0 = .error .OutOfFuel := by
  intro fuel
  have l0 : lookupNode gMixed 0 = some (Node.compound .AND [1]) := rfl
  simp [flattenGraph, l0, (gMixed_loops fuel).1]

/-- Flattening succeeds on every acyclic object tree that is well-formed
(nonempty compounds), whose compound objects are pairwise distinct objects
and distinct from every leaf object.  Leaf objects may be freely shared. -/
theorem flattenObj_acyclic :
    ∀ (t : ConditionObj) (fuel : Nat),
      sizeOf t < fuel →
      (compoundIds [t]).Nodup →
      (∀ l ∈ leafIds [t], l ∉ compoundIds [t]) →
      wfComponents [t] = true →
      ∃ c, flattenObj fuel t = .ok c := by
  intro t fuel hsz hnd hlc hwf
  cases t with
  | expression i s => exact ⟨.expression s, rfl⟩
  | comparison i k f v => exact ⟨.comparison k f v, rfl⟩
  | compound i op cs =>
    have hnd' : i ∉ compoundIds cs ∧ (compoundIds cs).Nodup := by
      simpa [compoundIds, List.nodup_cons] using hnd
    have hlc' : ∀ l ∈ leafIds cs, l ∉ compoundIds cs := by
      intro l hl
      have := hlc l (by simp [leafIds, hl])
      intro h
      exact this (by simp [compoundIds, h])
    have hwf' : cs.isEmpty = false ∧ wfComponents cs = true := by
      simp [wfComponents] at hwf
      exact ⟨by simpa using hwf.1, hwf.2⟩
    have hcsne : cs ≠ [] := by
      intro h
      rw [h] at hwf'
      simp at hwf'
    have hszc : sizeOf cs < fuel := by simp at hsz; omega
    have hmemo : ∀ x ∈ ([i] : List Nat), x ∉ compoundIds cs ∧ x ∉ leafIds cs := by
      intro x hx
      simp at hx
      subst hx
      refine ⟨hnd'.1, fun h => ?_⟩
      have := hlc x (by simp [leafIds, h])
      exact this (by simp [compoundIds])
    obtain ⟨fs, m2, heq, hlen, _⟩ :=
      flattenLoopO_acyclic fuel cs op [i] hszc hnd'.2 hlc' hwf'.2 hmemo
    have hfs : fs.isEmpty = false := by
      have hpos : 0 < fs.length := lt_of_lt_of_le (List.length_pos.mpr hcsne) hlen
      cases fs with
      | nil => simp at hpos
      | cons a l => rfl
    exact ⟨.compound op fs, by simp [flattenObj, heq, hfs]⟩

set_option maxRecDepth 4000 in
/-- C1 counterexample: the claim's own example — an AND whose OR child
contains that AND (`gMixed`) — does not fail with `CircularDependency`:
even 120 call frames deep, flatten is still recursing (`OutOfFuel`), and
`gMixed_loops` shows the same at every depth.  The memo is reset whenever
the operator alternates, so this cycle is never detected. -/
theorem C1_counterexample : flattenGraph gMixed 120 0 = .error .OutOfFuel := rfl

/-- C1 amended: a Compound whose component list contains the compound
itself fails immediately with `CircularDependency` carrying that node, and
a cycle that stays within one operator (`gSameOp`) is likewise detected;
but a cycle that passes through a child Compound with a different operator
(`gMixed`) makes flatten recurse without bound instead — at every
recursion depth the run is still going (`OutOfFuel`), never a
`CircularDependency` and never a result. -/
theorem C1_amended :
    (∀ (g : List (Nat × Node)) (i : Nat) (op : CompoundOperator) (rest : List Nat) (fuel : Nat),
      lookupNode g i = some (.compound op (i :: rest)) →
      flattenGraph g (fuel + 1) i = .error (.CircularDependency i)) ∧
    flattenGraph gSameOp 10 0 = .error (.CircularDependency 0) ∧
    (∀ fuel, flattenGraph gMixed fuel 0 = .error .OutOfFuel) := by
  refine ⟨?_, rfl, flattenGraph_gMixed⟩
  intro g i op rest fuel h
  simp [flattenGraph, h, flattenLoopG]

/-- C1 amended, witness: the direct self-inclusion heap `gSelf` satisfies
the hypothesis and flatten on it raises `CircularDependency 0`. -/
theorem C1_amended_witness :
    lookupNode gSelf 0 = some (.compound .AND (0 :: [])) ∧
    flattenGraph gSelf (4 + 1) 0 = .error (.CircularDependency 0) :=
  ⟨rfl, C1_amended.1 gSelf 0 .AND [] 4 rfl⟩

/-- C2 counterexample: `tDiamond` is acyclic (no node is its own
ancestor), yet flattening raises `CircularDependency` on the shared
same-operator compound `sharedAnd` (id 3): the memo entries left by the
first sibling's subtree are still visible while the second sibling is
processed, so siblings *do* see each other's markers. -/
theorem C2_counterexample :
    flattenObj 50 tDiamond = .error (.CircularDependency 3) := rfl

/-- C2 amended: the visited set is scoped per same-operator region rather
than per path — markers accumulated while flattening one same-operator
child stay visible to later siblings, and only a different-operator child
is flattened with a fresh set.  Consequently flatten succeeds on every
acyclic well-formed tree in which no Compound instance is reused (compound
ids pairwise distinct and distinct from all leaf ids); leaf instances may
be freely shared under different parents, as the witness's `tShared`
(one leaf object under two different parents) shows.  Reusing a
same-operator Compound instance, however, raises `CircularDependency` even
on an acyclic tree (`C2_counterexample`). -/
theorem C2_amended :
    ∀ (t : ConditionObj) (fuel : Nat),
      sizeOf t < fuel →
      (compoundIds [t]).Nodup →
      (∀ l ∈ leafIds [t], l ∉ compoundIds [t]) →
      wfComponents [t] = true →
      ∃ c, flattenObj fuel t = .ok c :=
  flattenObj_acyclic

/-- C2 amended, witness: the shared-leaf diamond `tShared` satisfies every
hypothesis (its leaf id 7 appears twice) and flattens successfully. -/
theorem C2_amended_witness :
    sizeOf tShared < 300 ∧ (compoundIds [tShared]).Nodup ∧
    (∀ l ∈ leafIds [tShared], l ∉ compoundIds [tShared]) ∧
    wfComponents [tShared] = true ∧
    ∃ c, flattenObj 300 tShared = .ok c := by
  have h1 : sizeOf tShared < 300 := by decide
  have h2 : (compoundIds [tShared]).Nodup := by simp [tShared, sharedLeaf, compoundIds]
  have h3 : ∀ l ∈ leafIds [tShared], l ∉ compoundIds [tShared] := by
    intro l hl
    simp [tShared, sharedLeaf, leafIds] at hl
    simp [tShared, sharedLeaf, compoundIds, hl]
  have h4 : wfComponents [tShared] = true := by simp [tShared, sharedLeaf, wfComponents]
  exact ⟨h1, h2, h3, h4, C2_amended tShared 300 h1 h2 h3 h4⟩

/-- C3: the spec's flatten-merging example produces a single-level AND
with exactly four components in left-to-right order — the three EQ leaves
and the untouched OR subtree; in general a compound whose only child is a
same-operator compound flattens to exactly what that child flattens to
(never nested singly), e.g. `AND(AND(EQ("a","a")))` flattens to
`AND(EQ("a","a"))`. -/
theorem C3_flatten_merging :
    flattenObj 30 tC3 = .ok cC3 ∧
    (∀ (fuel : Nat) (op : CompoundOperator) (cs : List Condition),
      flattenV (fuel + 1) (.compound op [.compound op cs]) = flattenV fuel (.compound op cs)) ∧
    flattenV 10 (.compound .AND [.compound .AND [.comparison .EQ "a" (.str "a")]])
      = .ok (.compound .AND [.comparison .EQ "a" (.str "a")]) :=
  ⟨rfl, flattenV_singleton, rfl⟩

/-- C4: flattening is idempotent up to rendering — whenever flatten
succeeds on a tree, flattening the (freshly constructed, hence memo-silent)
result reproduces it exactly, so rendering the twice-flattened tree with
the generic renderer gives the identical string as rendering the
once-flattened tree. -/
theorem C4_flatten_idempotent :
    ∀ (fuelA : Nat) (t : ConditionObj) (c : Condition),
      flattenObj fuelA t = .ok c →
      ∀ fuelB, sizeOf c ≤ fuelB →
        flattenV fuelB c = .ok c ∧
        ∀ fuelR, ((flattenV fuelB c).bind (Renderer_to_str fuelR)) = Renderer_to_str fuelR c := by
  intro fuelA t c h fuelB hsz
  have hfix := flattenV_fix c fuelB (flattenObj_noNest fuelA t c h) hsz
  exact ⟨hfix, fun fuelR => by rw [hfix]; rfl⟩

/-- C4 witness: the merging example `tC3` flattens to `cC3`, and
re-flattening `cC3` reproduces it, with identical rendering. -/
theorem C4_witness :
    flattenObj 30 tC3 = .ok cC3 ∧ sizeOf cC3 ≤ 3000 ∧
    (flattenV 3000 cC3 = .ok cC3 ∧
     ∀ fuelR, ((flattenV 3000 cC3).bind (Renderer_to_str fuelR)) = Renderer_to_str fuelR cC3) :=
  ⟨rfl, by decide, C4_flatten_idempotent 30 tC3 cC3 rfl 3000 (by decide)⟩

/-- C5: the LDAP renderer's entry point rewrites every `NE(f, v)` as
`NOT(EQ(f, v))` before normal dispatch — and because compound children are
rendered through the same entry point, the rewrite also applies to `NE`
nodes inside compounds: `NE("memberOf","group") AND EQ("name", None)`
renders with the OID-rewritten field and the presence-negated null. -/
theorem C5_ldap_ne_rewrite :
    (∀ (fuel : Nat) (f : String) (v : Value),
      LdapRenderer_to_str (fuel + 1) (.comparison .NE f v)
        = LdapRenderer_to_str fuel (.compound .NOT [.comparison .EQ f v])) ∧
    LdapRenderer_to_str 20
      (.compound .AND [.comparison .NE "memberOf" (.str "group"), .comparison .EQ "name" .none])
      = .ok "(&(!(memberOf:1.2.840.113556.1.4.1941=group))(!name=*))" :=
  ⟨fun _ _ _ => rfl, rfl⟩

/-- C6: `AirtableRenderer.format_value` maps null to `EMPTY()`, booleans
to `"1"`/`"0"`, date and datetime to the single-quoted ISO-8601 string,
and int/float/Decimal/Expression to their bare stringification; every
other value type — e.g. a list, or a plain string — fails with a
`TypeError` naming the value's type, and the failure propagates through
rendering. -/
theorem C6_airtable_format_value :
    AirtableRenderer_format_value .none = .ok "EMPTY()" ∧
    AirtableRenderer_format_value (.bool true) = .ok "1" ∧
    AirtableRenderer_format_value (.bool false) = .ok "0" ∧
    (∀ y m d, AirtableRenderer_format_value (.date y m d) = .ok (pyReprStr (isoDate y m d))) ∧
    (∀ y mo d h mi s, AirtableRenderer_format_value (.datetime y mo d h mi s)
      = .ok (pyReprStr (isoDateTime y mo d h mi s))) ∧
    (∀ n, AirtableRenderer_format_value (.int n) = .ok (toString n)) ∧
    (∀ s, AirtableRenderer_format_value (.float s) = .ok s) ∧
    (∀ s, AirtableRenderer_format_value (.decimal s) = .ok s) ∧
    (∀ s, AirtableRenderer_format_value (.expression s) = .ok s) ∧
    (∀ vs, AirtableRenderer_format_value (.list vs) = .error (.TypeError "list")) ∧
    (∀ s, AirtableRenderer_format_value (.str s) = .error (.TypeError "str")) ∧
    AirtableRenderer_format_value (.date 2023 1 23) = .ok (pyReprStr "2023-01-23") ∧
    AirtableRenderer_to_str 3
      (.comparison .EQ "baz" (.list [.str "lists", .str "not", .str "supported"]))
      = .error (.TypeError "list") :=
  ⟨rfl, rfl, rfl, fun _ _ _ => rfl, fun _ _ _ _ _ _ => rfl, fun _ => rfl, fun _ => rfl,
   fun _ => rfl, fun _ => rfl, fun _ => rfl, fun _ => rfl, rfl, rfl⟩

/-- C7: `a ^ b` builds exactly `OR(AND(a, NOT(b)), AND(b, NOT(a)))`, so
rendering the XOR desugaring with the generic renderer produces the
identical string as rendering that explicit tree. -/
theorem C7_xor_desugaring :
    ∀ (a b : Condition),
      XOR a b = .ok (.compound .OR
        [.compound .AND [a, .compound .NOT [b]],
         .compound .AND [b, .compound .NOT [a]]]) ∧
      ∀ fuel, (XOR a b).bind (Renderer_to_str fuel)
        = Renderer_to_str fuel (.compound .OR
            [.compound .AND [a, .compound .NOT [b]],
             .compound .AND [b, .compound .NOT [a]]]) :=
  fun _ _ => ⟨rfl, fun _ => rfl⟩

/-- C8: `NOT` with two or more positional arguments fails with the call
protocol's `TypeError` before the body runs, while a resolved component
count of 0 or 2+ (positional plus keyword shorthand) fails with a
`ValueError` carrying the count; the two failure kinds are distinct error
constructors, so `NOT(a, b)` fails differently from `NOT(a, bar=2)` and
from `NOT()`. -/
theorem C8_not_arity :
    (∀ (a b : Condition) (rest : List Condition) (fields : List (String × Value)),
      NOT (a :: b :: rest) fields = .error (.TypeError
        ("NOT() takes from 0 to 1 positional arguments but "
          ++ toString (rest.length + 2) ++ " were given"))) ∧
    (∀ (a : Condition) (p : String × Value) (ps : List (String × Value)),
      NOT [a] (p :: ps) = .error (.ValueError
        ("NOT() requires exactly one condition; got " ++ toString (ps.length + 2)))) ∧
    NOT [] [] = .error (.ValueError "NOT() requires exactly one condition; got 0") ∧
    (∀ (p q : String × Value) (ps : List (String × Value)),
      NOT [] (p :: q :: ps) = .error (.ValueError
        ("NOT() requires exactly one condition; got " ++ toString (ps.length + 2)))) ∧
    (∀ s t : String, PyError.TypeError s ≠ PyError.ValueError t) := by
  refine ⟨fun a b rest fields => rfl, fun a p ps => ?_, rfl, fun p q ps => ?_,
    fun s t h => by cases h⟩
  · simp [NOT, NOT_body, fieldsToEQ]
  · simp [NOT, NOT_body, fieldsToEQ]

/-- C9: constructing a `Compound` with zero components fails immediately
with a `ValueError`; hence `AND()` and `OR()` with zero positional
conditions and zero keyword pairs fail with that error, and any
successfully constructed compound provably has a nonempty component
list. -/
theorem C9_empty_compound :
    (∀ op, Compound_mk op [] = .error (.ValueError emptyCompoundMsg)) ∧
    AND [] [] = .error (.ValueError emptyCompoundMsg) ∧
    OR [] [] = .error (.ValueError emptyCompoundMsg) ∧
    (∀ (op : CompoundOperator) (cs : List Condition) (c : Condition),
      Compound_mk op cs = .ok c → cs ≠ [] ∧ c = .compound op cs) := by
  refine ⟨fun op => rfl, rfl, rfl, fun op cs c h => ?_⟩
  cases cs with
  | nil => exact absurd h (by simp [Compound_mk])
  | cons a l =>
    simp [Compound_mk] at h
    exact ⟨by simp, h.symm⟩

/-- C9 witness: a singleton component list is accepted and stored
unchanged. -/
theorem C9_witness :
    Compound_mk .AND [xleaf] = .ok (.compound .AND [xleaf]) ∧
    ([xleaf] ≠ [] ∧ Condition.compound .AND [xleaf] = .compound .AND [xleaf]) :=
  ⟨rfl, C9_empty_compound.2.2.2 .AND [xleaf] (.compound .AND [xleaf]) rfl⟩

/-- C10: in `LdapRenderer.render_comparison` the null-value special case
applies to every comparison kind, not only EQ — the output is
`(!field=*)` with the raw field name, consulting neither the
comparison-symbol table nor `format_field`; in particular `GT("x", None)`
and `LTE("x", None)` render as `(!x=*)`, and a null-valued comparison on
`memberOf` renders as `(!memberOf=*)` without the matching-rule OID
rewrite that `format_field` would normally perform. -/
theorem C10_ldap_null :
    (∀ (k : ComparisonKind) (f : String),
      LdapRenderer_render_comparison k f .none = "(!" ++ f ++ "=*)") ∧
    LdapRenderer_to_str 5 (.comparison .GT "x" .none) = .ok "(!x=*)" ∧
    LdapRenderer_to_str 5 (.comparison .LTE "x" .none) = .ok "(!x=*)" ∧
    LdapRenderer_to_str 5 (.comparison .GT "memberOf" .none) = .ok "(!memberOf=*)" ∧
    LdapRenderer_format_field "memberOf" = "memberOf:1.2.840.113556.1.4.1941" :=
  ⟨fun _ _ => rfl, rfl, rfl, rfl, rfl⟩

/-- Golden output of the base renderer's doctest:
`EQ("foo",1) & EQ("oof",1) & NOT(OR(EQ("bar",2), EQ("baz",3)))` — note the
left-nested AND is flattened during rendering. -/
theorem Renderer_to_str_doctest :
    Renderer_to_str 20
      (.compound .AND
        [.compound .AND [.comparison .EQ "foo" (.int 1), .comparison .EQ "oof" (.int 1)],
         .compound .NOT [.compound .OR
           [.comparison .EQ "bar" (.int 2), .comparison .EQ "baz" (.int 3)]]])
      = .ok "(foo=1 and oof=1 and not (bar=2 or baz=3))" := rfl

/-- Golden output of the LDAP renderer's first doctest, including the
generalized-time formatting of a date value. -/
theorem LdapRenderer_to_str_doctest :
    LdapRenderer_to_str 20
      (.compound .AND
        [.compound .OR [.comparison .EQ "foo" (.int 1), .comparison .EQ "bar" (.date 2023 1 23)],
         .comparison .GT "baz" (.int 3)])
      = .ok "(&(|(foo=1)(bar=20230123000000Z))(baz>3))" := rfl

/-- Golden output of the Airtable renderer's doctests: field braces, date
quoting, null as EMPTY(), Decimal and boolean formatting. -/
theorem AirtableRenderer_to_str_doctest :
    AirtableRenderer_to_str 20
      (.compound .OR
        [.comparison .EQ "foo" (.int 1), .comparison .EQ "bar" (.date 2023 1 23),
         .comparison .EQ "missing" .none])
      = .ok ("OR(\x7bfoo\x7d=1, \x7bbar\x7d=" ++ pyReprStr "2023-01-23"
          ++ ", \x7bmissing\x7d=EMPTY())") ∧
    AirtableRenderer_to_str 20
      (.compound .AND
        [.comparison .GTE "baz" (.decimal "3.5"), .comparison .NE "quux" (.bool false)])
      = .ok "AND(\x7bbaz\x7d>=3.5, \x7bquux\x7d!=0)" :=
  ⟨rfl, rfl⟩

/-- Bridge between the object-tree and value models of the flatten loop:
whenever the run with the memo succeeds, the memo never fired (a hit
raises), so the memo-erased run computes the same flattened components. -/
theorem flattenLoopO_value :
    ∀ (fuel : Nat) (cs : List ConditionObj) (op : CompoundOperator) (memo : List Nat)
      (fs : List Condition) (m2 : List Nat),
      flattenLoopO fuel op cs memo = .ok (fs, m2) →
      flattenLoopV fuel op (eraseIdsL cs) = .ok fs := by
  intro fuel
  induction fuel with
  | zero =>
    intro cs op memo fs m2 h
    exact absurd h (by simp [flattenLoopO])
  | succ n ih =>
    intro cs op memo fs m2 h
    match cs with
    | [] =>
      simp [flattenLoopO] at h
      obtain ⟨h1, _⟩ := h
      subst h1
      simp [eraseIdsL, flattenLoopV]
    | item :: rest =>
      cases item with
      | expression i s =>
        simp only [flattenLoopO] at h
        split at h
        · exact absurd h (by simp)
        · cases heq : flattenLoopO n op rest memo with
          | error e => rw [heq] at h; exact absurd h (by simp)
          | ok p =>
            obtain ⟨fs2, mm⟩ := p
            rw [heq] at h
            simp at h
            obtain ⟨h1, _⟩ := h
            subst h1
            simp only [eraseIdsL, flattenLoopV]
            rw [ih rest op memo fs2 mm heq]
      | comparison i k fl v =>
        simp only [flattenLoopO] at h
        split at h
        · exact absurd h (by simp)
        · cases heq : flattenLoopO n op rest memo with
          | error e => rw [heq] at h; exact absurd h (by simp)
          | ok p =>
            obtain ⟨fs2, mm⟩ := p
            rw [heq] at h
            simp at h
            obtain ⟨h1, _⟩ := h
            subst h1
            simp only [eraseIdsL, flattenLoopV]
            rw [ih rest op memo fs2 mm heq]
      | compound i op2 cs2 =>
        simp only [flattenLoopO] at h
        split at h
        · exact absurd h (by simp)
        · split at h
          · rename_i hop
            cases heq1 : flattenLoopO n op cs2 (i :: memo) with
            | error e => rw [heq1] at h; exact absurd h (by simp)
            | ok p1 =>
              obtain ⟨fs1, mm⟩ := p1
              rw [heq1] at h
              simp only [] at h
              split at h
              · exact absurd h (by simp)
              · rename_i hne
                cases heq2 : flattenLoopO n op rest mm with
                | error e => rw [heq2] at h; exact absurd h (by simp)
                | ok p2 =>
                  obtain ⟨fs2, mm2⟩ := p2
                  rw [heq2] at h
                  simp at h
                  obtain ⟨h1, _⟩ := h
                  subst h1
                  simp only [eraseIdsL, flattenLoopV]
                  rw [if_pos hop, ih cs2 op (i :: memo) fs1 mm heq1]
                  simp [hne, ih rest op mm fs2 mm2 heq2]
          · rename_i hop
            cases heq1 : flattenLoopO n op2 cs2 [i] with
            | error e => rw [heq1] at h; exact absurd h (by simp)
            | ok p1 =>
              obtain ⟨fs1, mm⟩ := p1
              rw [heq1] at h
              simp only [] at h
              split at h
              · exact absurd h (by simp)
              · rename_i hne
                cases heq2 : flattenLoopO n op rest memo with
                | error e => rw [heq2] at h; exact absurd h (by simp)
                | ok p2 =>
                  obtain ⟨fs2, mm2⟩ := p2
                  rw [heq2] at h
                  simp at h
                  obtain ⟨h1, _⟩ := h
                  subst h1
                  simp only [eraseIdsL, flattenLoopV]
                  rw [if_neg hop, ih cs2 op2 [i] fs1 mm heq1]
                  simp [hne, ih rest op memo fs2 mm2 heq2]

/-- Bridge at the top level: a successful `flatten` of an object tree
equals the memo-erased flatten of its underlying value tree. -/
theorem flattenObj_value :
    ∀ (fuel : Nat) (t : ConditionObj) (c : Condition),
      flattenObj fuel t = .ok c → flattenV fuel (eraseIds t) = .ok c := by
  intro fuel t c h
  cases t with
  | expression i s =>
    simp [flattenObj] at h
    rw [← h]
    rfl
  | comparison i k f v =>
    simp [flattenObj] at h
    rw [← h]
    rfl
  | compound i op cs =>
    simp only [flattenObj] at h
    cases heq : flattenLoopO fuel op cs [i] with
    | error e => rw [heq] at h; exact absurd h (by simp)
    | ok p =>
      obtain ⟨fs, m2⟩ := p
      rw [heq] at h
      simp only [] at h
      split at h
      · exact absurd h (by simp)
      · rename_i hne
        simp at h
        rw [← h]
        simp only [eraseIds, flattenV]
        rw [flattenLoopO_value fuel cs op [i] fs m2 heq]
        simp [hne]

/-- C8 witness: `NOT(a, b)` raises the positional-arguments `TypeError`,
`NOT(a, bar=2)` raises the resolved-count `ValueError`, and the two error
kinds are distinct. -/
theorem C8_witness :
    NOT [xleaf, xleaf] []
      = .error (.TypeError "NOT() takes from 0 to 1 positional arguments but 2 were given") ∧
    NOT [xleaf] [("bar", Value.int 2)]
      = .error (.ValueError "NOT() requires exactly one condition; got 2") ∧
    PyError.TypeError "NOT() takes from 0 to 1 positional arguments but 2 were given"
      ≠ PyError.ValueError "NOT() requires exactly one condition; got 2" :=
  ⟨C8_not_arity.1 xleaf xleaf [] [], C8_not_arity.2.1 xleaf ("bar", Value.int 2) [],
   C8_not_arity.2.2.2.2 "NOT() takes from 0 to 1 positional arguments but 2 were given"
     "NOT() requires exactly one condition; got 2"⟩
